import Mathlib

/-!
Shallow embedding of `src/pipeline/__main__.py` (pose-keypoint ETL pipeline).

The pipeline reads videos, extracts pose landmarks per frame (Capture),
flattens them into normalized rows (Transform) and inserts them into a
SQLite table with `INSERT OR IGNORE` under the composite primary key
(video_nome, frame, landmark_id) (Load).  Floating-point coordinate values
are only carried through, never computed with, so they are modelled as `Int`
placeholders; timestamps and names are carried as `String`.
-/

/-- Raw landmark value as returned by the detector for one frame: the
pipeline reads `landmark.x`, `.y`, `.z`, `.visibility` (lines 91-94). -/
structure PontoDetectado where
  x : Int
  y : Int
  z : Int
  visibilidade : Int
deriving DecidableEq

/-- Landmark dictionary built at lines 88-95: `id` is the enumeration index,
`nome` the symbolic name for that index. -/
structure Landmark where
  id : Nat
  nome : String
  x : Int
  y : Int
  z : Int
  visibilidade : Int
deriving DecidableEq

/-- One entry of `dados_brutos` (line 86): `{'frame': frame_count,
'landmarks': [...]}`. -/
structure FrameData where
  frame : Nat
  landmarks : List Landmark
deriving DecidableEq

/-- One tuple of `linhas_para_db` (lines 134-144), i.e. one row of the
`keypoints_normalizados` table (lines 40-51). -/
structure Linha where
  video_nome : String
  frame : Nat
  landmark_id : Nat
  landmark_nome : String
  x : Int
  y : Int
  z : Int
  visibilidade : Int
  data_processamento : String
deriving DecidableEq

/-- Composite primary key of the store: `PRIMARY KEY (video_nome, frame,
landmark_id)` (line 50). -/
def chave (l : Linha) : String × Nat × Nat :=
  (l.video_nome, l.frame, l.landmark_id)

/-! ## Capture stage: `extrair_keypoints`, lines 57-113 -/

/-- Landmark list of one frame, built by the `enumerate` loop at lines 87-96:
`id` is the index, `nome` comes from the external name table
`mp_pose.PoseLandmark(idx).name`, modelled as a function `nomeDe`. -/
def montaLandmarks (nomeDe : Nat → String) (pontos : List PontoDetectado) : List Landmark :=
  pontos.enum.map fun p =>
    { id := p.1, nome := nomeDe p.1, x := p.2.x, y := p.2.y, z := p.2.z,
      visibilidade := p.2.visibilidade }

/-- Frame loop of `extrair_keypoints` (lines 73-99).  Each element of
`frames` is the detector result for one decoded frame: `some pontos` when
`results.pose_landmarks` is present, `none` otherwise.  The accumulator is
`dados_brutos` and the counter is `frame_count`, incremented on every frame
(line 99) whether or not the frame was recorded.  Returns the pair
`(dados_brutos, frame_count)` at end-of-stream. -/
def lacoCaptura (nomeDe : Nat → String) :
    List (Option (List PontoDetectado)) → Nat → List FrameData → List FrameData × Nat
  | [], n, acc => (acc, n)
  | some pontos :: resto, n, acc =>
      lacoCaptura nomeDe resto (n + 1) (acc ++ [⟨n, montaLandmarks nomeDe pontos⟩])
  | none :: resto, n, acc =>
      lacoCaptura nomeDe resto (n + 1) acc

/-- Capture of one readable video: the loop started with `frame_count = 0`
and `dados_brutos = []` (lines 70-71). -/
def extraiFrames (nomeDe : Nat → String) (frames : List (Option (List PontoDetectado))) :
    List FrameData × Nat :=
  lacoCaptura nomeDe frames 0 []

/-! ## Transform stage: lines 128-144 of `transformar_e_carregar` -/

/-- One row appended at lines 134-144, for frame index `fr` and landmark
`lm`, with the single timestamp `t` (`data_proc_str`). -/
def linhaDe (nome : String) (t : String) (fr : Nat) (lm : Landmark) : Linha :=
  { video_nome := nome, frame := fr, landmark_id := lm.id, landmark_nome := lm.nome,
    x := lm.x, y := lm.y, z := lm.z, visibilidade := lm.visibilidade,
    data_processamento := t }

/-- Flattening loop at lines 131-144: for every frame entry, for every
landmark, append one tuple to `linhas_para_db`.  `t` is `data_proc_str`,
computed once at line 129 before the loop. -/
def transforma (nome : String) (t : String) (dados : List FrameData) : List Linha :=
  dados.foldl
    (fun acc fd => fd.landmarks.foldl (fun acc2 lm => acc2 ++ [linhaDe nome t fd.frame lm]) acc)
    []

/-! ## Load stage: lines 150-165 of `transformar_e_carregar` -/

/-- SQLite duplicate test for `INSERT OR IGNORE`: does a row with this
primary key already exist in the table? -/
def chavePresente (banco : List Linha) (k : String × Nat × Nat) : Bool :=
  banco.any fun l => decide (chave l = k)

/-- Effect of one `INSERT OR IGNORE` statement on the table together with
the running count of inserted rows: on a key collision the statement is a
no-op, otherwise the row is appended and counted. -/
def passoCarga (acc : List Linha × Nat) (l : Linha) : List Linha × Nat :=
  if chavePresente acc.1 (chave l) then acc else (acc.1 ++ [l], acc.2 + 1)

/-- The `cursor.executemany` batch at line 162: all rows applied in order;
the result is the new table contents and `cursor.rowcount`, the number of
rows actually inserted (ignored duplicates do not count), which is the
figure logged at line 165. -/
def carrega (banco : List Linha) (linhas : List Linha) : List Linha × Nat :=
  linhas.foldl passoCarga (banco, 0)

/-- Rows of a batch skipped as duplicates.  Modelled from the spec: the Load
contract of section 4.3 returns `{inserted, skipped}`; the code computes no
such figure, so the spec-side quantity is the batch size minus the inserted
count. -/
def puladas (banco : List Linha) (linhas : List Linha) : Nat :=
  linhas.length - (carrega banco linhas).2

/-! ## Basic lemmas about the load fold -/

theorem foldl_passoCarga_fst (linhas : List Linha) :
    ∀ b n m, (linhas.foldl passoCarga (b, n)).1 = (linhas.foldl passoCarga (b, m)).1 := by
  induction linhas with
  | nil => intro b n m; rfl
  | cons l resto ih =>
      intro b n m
      simp only [List.foldl_cons, passoCarga]
      by_cases h : chavePresente b (chave l)
      · simp only [h, if_pos]
        exact ih b n m
      · simp only [h, if_neg, Bool.false_eq_true, not_false_iff]
        exact ih (b ++ [l]) (n + 1) (m + 1)

theorem chavePresente_foldl (linhas : List Linha) :
    ∀ b n k, chavePresente b k = true →
      chavePresente (linhas.foldl passoCarga (b, n)).1 k = true := by
  induction linhas with
  | nil => intro b n k h; exact h
  | cons l resto ih =>
      intro b n k h
      simp only [List.foldl_cons, passoCarga]
      by_cases hp : chavePresente b (chave l)
      · simp only [hp, if_pos]
        exact ih b n k h
      · simp only [hp, if_neg, Bool.false_eq_true, not_false_iff]
        refine ih (b ++ [l]) (n + 1) k ?_
        simp only [chavePresente, List.any_append] at h ⊢
        simp [h]

theorem chave_mem_foldl (linhas : List Linha) :
    ∀ b n l, l ∈ linhas →
      chavePresente (linhas.foldl passoCarga (b, n)).1 (chave l) = true := by
  induction linhas with
  | nil => intro b n l h; cases h
  | cons l0 resto ih =>
      intro b n l h
      rcases List.mem_cons.mp h with h0 | h0
      · subst h0
        simp only [List.foldl_cons, passoCarga]
        by_cases hp : chavePresente b (chave l)
        · simp only [hp, if_pos]
          exact chavePresente_foldl resto b n (chave l) hp
        · simp only [hp, if_neg, Bool.false_eq_true, not_false_iff]
          refine chavePresente_foldl resto (b ++ [l]) (n + 1) (chave l) ?_
          simp [chavePresente]
      · simp only [List.foldl_cons, passoCarga]
        by_cases hp : chavePresente b (chave l0)
        · simp only [hp, if_pos]
          exact ih b n l h0
        · simp only [hp, if_neg, Bool.false_eq_true, not_false_iff]
          exact ih (b ++ [l0]) (n + 1) l h0

theorem foldl_passoCarga_presentes (linhas : List Linha) :
    ∀ b n, (∀ l ∈ linhas, chavePresente b (chave l) = true) →
      linhas.foldl passoCarga (b, n) = (b, n) := by
  induction linhas with
  | nil => intro b n _; rfl
  | cons l resto ih =>
      intro b n h
      have hl : chavePresente b (chave l) = true := h l (List.mem_cons_self l resto)
      simp only [List.foldl_cons, passoCarga, hl, if_pos]
      exact ih b n fun x hx => h x (List.mem_cons_of_mem l hx)

/-- C1: loading the same row sequence twice yields inserted = 0 on the
second call and leaves the table exactly as it was after the first call:
every colliding row is dropped and no stored value changes. -/
theorem carrega_idempotente (banco linhas : List Linha) :
    carrega (carrega banco linhas).1 linhas = ((carrega banco linhas).1, 0) := by
  refine foldl_passoCarga_presentes linhas (carrega banco linhas).1 0 ?_
  intro l hl
  exact chave_mem_foldl linhas banco 0 l hl

/-! ## Characterization of the transform fold -/

theorem foldl_linhas_landmarks (nome t : String) (fr : Nat) (lms : List Landmark) :
    ∀ acc : List Linha,
      lms.foldl (fun a lm => a ++ [linhaDe nome t fr lm]) acc
        = acc ++ lms.map (linhaDe nome t fr) := by
  induction lms with
  | nil => intro acc; simp
  | cons lm resto ih =>
      intro acc
      simp only [List.foldl_cons, List.map_cons]
      rw [ih (acc ++ [linhaDe nome t fr lm])]
      simp

theorem transforma_foldl_geral (nome t : String) (dados : List FrameData) :
    ∀ acc : List Linha,
      dados.foldl
        (fun acc fd => fd.landmarks.foldl (fun a2 lm => a2 ++ [linhaDe nome t fd.frame lm]) acc)
        acc
      = acc ++ dados.flatMap fun fd => fd.landmarks.map (linhaDe nome t fd.frame) := by
  induction dados with
  | nil => intro acc; simp
  | cons fd resto ih =>
      intro acc
      simp only [List.foldl_cons, List.flatMap_cons]
      rw [foldl_linhas_landmarks nome t fd.frame fd.landmarks acc, ih]
      simp

theorem transforma_eq (nome t : String) (dados : List FrameData) :
    transforma nome t dados
      = dados.flatMap fun fd => fd.landmarks.map (linhaDe nome t fd.frame) := by
  have h := transforma_foldl_geral nome t dados []
  simpa [transforma] using h

/-- C3: the transform of a capture with frame list `dados` emits exactly one
row per (frame, landmark) pair — the flat map of `linhaDe`, which copies the
videoId, the frame index and the landmark's id, name, x, y, z and
visibility unchanged — so the row count is the sum of the per-frame landmark
counts. -/
theorem transforma_contagem_e_campos (nome t : String) (dados : List FrameData) :
    transforma nome t dados
      = (dados.flatMap fun fd => fd.landmarks.map (linhaDe nome t fd.frame)) ∧
    (transforma nome t dados).length = (dados.map fun fd => fd.landmarks.length).sum := by
  refine ⟨transforma_eq nome t dados, ?_⟩
  rw [transforma_eq nome t dados]
  simp [List.length_flatMap, Function.comp_def]

/-- C4: every row emitted by one invocation of the transform carries the
single timestamp `t` computed once before the flattening loop. -/
theorem transforma_data_unica (nome t : String) (dados : List FrameData) (l : Linha)
    (h : l ∈ transforma nome t dados) : l.data_processamento = t := by
  rw [transforma_eq nome t dados] at h
  rcases List.mem_flatMap.mp h with ⟨fd, _, hfd⟩
  rcases List.mem_map.mp hfd with ⟨lm, _, hlm⟩
  rw [← hlm]
  rfl

/-- Concrete landmark used by the closed witness statements. -/
def lmTeste : Landmark :=
  { id := 0, nome := "NOSE", x := 1, y := 2, z := 3, visibilidade := 4 }

/-- Concrete frame entry used by the closed witness statements. -/
def fdTeste : FrameData :=
  { frame := 0, landmarks := [lmTeste] }

/-- Witness for C4 at a one-frame, one-landmark capture. -/
theorem transforma_data_unica_witness :
    linhaDe "v.mp4" "t0" 0 lmTeste ∈ transforma "v.mp4" "t0" [fdTeste] ∧
    (linhaDe "v.mp4" "t0" 0 lmTeste).data_processamento = "t0" :=
  ⟨by decide,
   transforma_data_unica "v.mp4" "t0" [fdTeste] (linhaDe "v.mp4" "t0" 0 lmTeste) (by decide)⟩

/-! ## Uniqueness invariant of the store -/

/-- Invariant of the `keypoints_normalizados` table: the primary-key triple
is duplicate-free across all stored rows. -/
def chavesUnicas (banco : List Linha) : Prop :=
  (banco.map chave).Nodup

/-- States of the store reachable from the empty table by a sequence of
load batches (the only operation the pipeline performs on the table). -/
def alcancavel (lotes : List (List Linha)) : List Linha :=
  lotes.foldl (fun b linhas => (carrega b linhas).1) []

theorem chavePresente_iff (banco : List Linha) (k : String × Nat × Nat) :
    chavePresente banco k = true ↔ k ∈ banco.map chave := by
  simp [chavePresente, List.any_eq_true, List.mem_map]

theorem foldl_passoCarga_unicas (linhas : List Linha) :
    ∀ b n, chavesUnicas b → chavesUnicas (linhas.foldl passoCarga (b, n)).1 := by
  induction linhas with
  | nil => intro b n h; exact h
  | cons l resto ih =>
      intro b n h
      simp only [List.foldl_cons, passoCarga]
      by_cases hp : chavePresente b (chave l)
      · simp only [hp, if_pos]
        exact ih b n h
      · simp only [hp, if_neg, Bool.false_eq_true, not_false_iff]
        refine ih (b ++ [l]) (n + 1) ?_
        have hnot : chave l ∉ b.map chave := fun hmem =>
          hp ((chavePresente_iff b (chave l)).mpr hmem)
        simp only [chavesUnicas, List.map_append, List.map_cons, List.map_nil,
          List.nodup_append, List.nodup_singleton, true_and]
        exact ⟨h, by simpa [List.disjoint_singleton] using hnot⟩

theorem mem_foldl_passoCarga (linhas : List Linha) :
    ∀ b n r, r ∈ b → r ∈ (linhas.foldl passoCarga (b, n)).1 := by
  induction linhas with
  | nil => intro b n r h; exact h
  | cons l resto ih =>
      intro b n r h
      simp only [List.foldl_cons, passoCarga]
      by_cases hp : chavePresente b (chave l)
      · simp only [hp, if_pos]
        exact ih b n r h
      · simp only [hp, if_neg, Bool.false_eq_true, not_false_iff]
        exact ih (b ++ [l]) (n + 1) r (List.mem_append_left _ h)

theorem chavesUnicas_alcancavel_aux (lotes : List (List Linha)) :
    ∀ b, chavesUnicas b → chavesUnicas (lotes.foldl (fun b linhas => (carrega b linhas).1) b) := by
  induction lotes with
  | nil => intro b h; exact h
  | cons lote resto ih =>
      intro b h
      exact ih (carrega b lote).1 (foldl_passoCarga_unicas lote b 0 h)

/-- C2: every store state reachable by a sequence of loads has pairwise
distinct primary keys, and for any further batch, a row already present
survives the load unchanged: it is still a member, and any row of the new
state with the same key is that very row (the colliding insert was
silently dropped, never an overwrite). -/
theorem unicidade_e_sem_sobrescrita (lotes : List (List Linha)) :
    chavesUnicas (alcancavel lotes) ∧
    ∀ linhas r, r ∈ alcancavel lotes →
      r ∈ (carrega (alcancavel lotes) linhas).1 ∧
      ∀ r', r' ∈ (carrega (alcancavel lotes) linhas).1 → chave r' = chave r → r' = r := by
  have hu : chavesUnicas (alcancavel lotes) :=
    chavesUnicas_alcancavel_aux lotes [] (by simp [chavesUnicas])
  refine ⟨hu, fun linhas r hr => ?_⟩
  have hmem : r ∈ (carrega (alcancavel lotes) linhas).1 :=
    mem_foldl_passoCarga linhas (alcancavel lotes) 0 r hr
  refine ⟨hmem, fun r' hr' hk => ?_⟩
  have hu' : chavesUnicas (carrega (alcancavel lotes) linhas).1 :=
    foldl_passoCarga_unicas linhas (alcancavel lotes) 0 hu
  exact List.inj_on_of_nodup_map hu' hr' hmem hk

/-- Witness for C2: a one-batch history, then a re-insert attempt with the
same key (different coordinate values) is dropped. -/
theorem unicidade_e_sem_sobrescrita_witness :
    chavesUnicas (alcancavel [[linhaDe "v.mp4" "t0" 0 lmTeste]]) ∧
    (linhaDe "v.mp4" "t0" 0 lmTeste
        ∈ (carrega (alcancavel [[linhaDe "v.mp4" "t0" 0 lmTeste]])
            [linhaDe "v.mp4" "t1" 0 lmTeste]).1 ∧
      ∀ r', r' ∈ (carrega (alcancavel [[linhaDe "v.mp4" "t0" 0 lmTeste]])
            [linhaDe "v.mp4" "t1" 0 lmTeste]).1 →
        chave r' = chave (linhaDe "v.mp4" "t0" 0 lmTeste) →
        r' = linhaDe "v.mp4" "t0" 0 lmTeste) :=
  ⟨(unicidade_e_sem_sobrescrita [[linhaDe "v.mp4" "t0" 0 lmTeste]]).1,
   (unicidade_e_sem_sobrescrita [[linhaDe "v.mp4" "t0" 0 lmTeste]]).2
     [linhaDe "v.mp4" "t1" 0 lmTeste] (linhaDe "v.mp4" "t0" 0 lmTeste) (by decide)⟩

/-! ## Characterization of the capture loop -/

theorem lacoCaptura_geral (nomeDe : Nat → String) (frames : List (Option (List PontoDetectado))) :
    ∀ n acc, lacoCaptura nomeDe frames n acc
      = (acc ++ (List.enumFrom n frames).filterMap
            (fun p => p.2.map fun pts => (⟨p.1, montaLandmarks nomeDe pts⟩ : FrameData)),
         n + frames.length) := by
  induction frames with
  | nil => intro n acc; simp [lacoCaptura]
  | cons f resto ih =>
      intro n acc
      cases f with
      | some pontos =>
          have hstep : lacoCaptura nomeDe (some pontos :: resto) n acc
              = lacoCaptura nomeDe resto (n + 1)
                  (acc ++ [({ frame := n, landmarks := montaLandmarks nomeDe pontos } : FrameData)]) := rfl
          rw [hstep,
            ih (n + 1) (acc ++ [({ frame := n, landmarks := montaLandmarks nomeDe pontos } : FrameData)])]
          refine Prod.ext ?_ ?_
          · simp [List.enumFrom, List.filterMap_cons, List.append_assoc]
          · show n + 1 + resto.length = n + (resto.length + 1)
            omega
      | none =>
          simp only [lacoCaptura, List.enumFrom, List.filterMap_cons, Option.map_none,
            List.length_cons]
          rw [ih (n + 1) acc]
          refine Prod.ext rfl ?_
          simp; omega

theorem lacoCaptura_crescente (nomeDe : Nat → String)
    (frames : List (Option (List PontoDetectado))) :
    ∀ n acc, (∀ fd ∈ acc, fd.frame < n) →
      (acc.map FrameData.frame).Pairwise (· < ·) →
      ((lacoCaptura nomeDe frames n acc).1.map FrameData.frame).Pairwise (· < ·) := by
  induction frames with
  | nil => intro n acc _ hpw; exact hpw
  | cons f resto ih =>
      intro n acc hlt hpw
      cases f with
      | some pontos =>
          simp only [lacoCaptura]
          refine ih (n + 1) (acc ++ [⟨n, montaLandmarks nomeDe pontos⟩]) ?_ ?_
          · intro fd hfd
            rcases List.mem_append.mp hfd with h | h
            · exact Nat.lt_succ_of_lt (hlt fd h)
            · rcases List.mem_singleton.mp h with rfl
              exact Nat.lt_succ_self n
          · rw [List.map_append]
            rw [List.pairwise_append]
            refine ⟨hpw, List.pairwise_singleton _ _, ?_⟩
            intro a ha b hb
            rcases List.mem_map.mp ha with ⟨fd, hfd, rfl⟩
            rcases List.mem_singleton.mp hb with rfl
            exact hlt fd hfd
      | none =>
          simp only [lacoCaptura]
          exact ih (n + 1) acc (fun fd hfd => Nat.lt_succ_of_lt (hlt fd hfd)) hpw

/-- C5: the capture of a video records exactly the frames with a detection,
in stream order — the recorded frameIndex of each kept frame is its ordinal
position counted from 0 over all frames, skipped ones included — so the
recorded indices are strictly increasing; the frame counter returned at
end-of-stream equals the total number of frames read. -/
theorem captura_esparsa_e_contador (nomeDe : Nat → String)
    (frames : List (Option (List PontoDetectado))) :
    (extraiFrames nomeDe frames).1
      = frames.enum.filterMap
          (fun p => p.2.map fun pts => (⟨p.1, montaLandmarks nomeDe pts⟩ : FrameData)) ∧
    (extraiFrames nomeDe frames).2 = frames.length ∧
    ((extraiFrames nomeDe frames).1.map FrameData.frame).Pairwise (· < ·) := by
  refine ⟨?_, ?_, ?_⟩
  · rw [extraiFrames, lacoCaptura_geral nomeDe frames 0 []]
    simp [List.enum]
  · rw [extraiFrames, lacoCaptura_geral nomeDe frames 0 []]
    simp
  · exact lacoCaptura_crescente nomeDe frames 0 [] (by simp) (by simp)

/-! ## Pipeline state, environment and orchestrator: lines 57-201 -/

/-- Detector view of one video file: `ilegivel` models `not cap.isOpened()`
(line 66); `legivel frames` gives, per decoded frame in stream order, the
detection result (`some` exactly when `results.pose_landmarks` is present
at line 85). -/
inductive Conteudo
  | ilegivel
  | legivel (frames : List (Option (List PontoDetectado)))
deriving DecidableEq

/-- External world of one run: the landmark name table
(`mp_pose.PoseLandmark(idx).name`), each video file's content, the
timestamp `datetime.utcnow()` read while transforming a video, and whether
SQLite raises `sqlite3.Error` during that video's load (line 167). -/
structure Ambiente where
  nomeDe : Nat → String
  conteudo : String → Conteudo
  dataProc : String → String
  dbErro : String → Bool

/-- Durable state crossed by the pipeline: the JSON artifacts of
`KEYPOINTS_OUTPUT_DIR` keyed by video name, and the SQLite table. -/
structure Estado where
  artefatos : List (String × List FrameData)
  banco : List Linha
deriving DecidableEq

/-- Effect of the artifact write at lines 105-108 on the artifact
directory: `open(json_output_path, 'w')` replaces an existing file of the
same name and creates it otherwise. -/
def gravaArtefato (arts : List (String × List FrameData)) (nome : String)
    (dados : List FrameData) : List (String × List FrameData) :=
  if arts.any fun p => decide (p.1 = nome) then
    arts.map fun p => if p.1 = nome then (nome, dados) else p
  else arts ++ [(nome, dados)]

/-- Reading the artifact back (`json.load` at lines 125-126). -/
def leArtefato (arts : List (String × List FrameData)) (nome : String) : List FrameData :=
  ((arts.find? fun p => decide (p.1 = nome)).map Prod.snd).getD []

/-- Return value of `extrair_keypoints`: `naoAbriu` models the bare
`return None` at line 68 (a single value, not a pair — unpacking it in
`main` raises TypeError), `semPose` the `return None, None` at line 113,
`ok` the `return video_nome, json_output_path` at line 110. -/
inductive ResultadoExtracao
  | naoAbriu
  | semPose
  | ok (nome : String)
deriving DecidableEq

/-- The capture stage `extrair_keypoints` (lines 57-113) acting on the
artifact directory: an unreadable video does no further work at all; a
readable video with zero detections writes nothing; otherwise the whole
capture is written under the video's name. -/
def extrairKeypoints (env : Ambiente) (nome : String) (st : Estado) :
    ResultadoExtracao × Estado :=
  match env.conteudo nome with
  | Conteudo.ilegivel => (ResultadoExtracao.naoAbriu, st)
  | Conteudo.legivel frames =>
      let dados := (extraiFrames env.nomeDe frames).1
      if dados.isEmpty then (ResultadoExtracao.semPose, st)
      else (ResultadoExtracao.ok nome,
            { st with artefatos := gravaArtefato st.artefatos nome dados })

/-- Per-video outcome as observable in the run's log: `falhaLeitura` is the
error logged at line 67 followed by the TypeError raised when `main`
unpacks the single `None`, caught at line 198; `semPose` the warning at
line 112; `semLinhas` the warning at line 147; `falhaBanco` the SQLite
error caught at line 167; `carregado n` the success log of line 165 with
`cursor.rowcount = n`. -/
inductive Desfecho
  | falhaLeitura
  | semPose
  | semLinhas
  | falhaBanco
  | carregado (inseridos : Nat)
deriving DecidableEq

/-- Transform-and-load `transformar_e_carregar` (lines 115-171) for a video
whose artifact exists: flattens the stored JSON with the one timestamp of
this invocation and applies the whole batch with `INSERT OR IGNORE`; a
SQLite error means the commit at line 163 is never reached, so the table is
unchanged. -/
def transformaECarrega (env : Ambiente) (nome : String) (st : Estado) : Desfecho × Estado :=
  let linhas := transforma nome (env.dataProc nome) (leArtefato st.artefatos nome)
  if linhas.isEmpty then (Desfecho.semLinhas, st)
  else if env.dbErro nome then (Desfecho.falhaBanco, st)
  else (Desfecho.carregado (carrega st.banco linhas).2,
        { st with banco := (carrega st.banco linhas).1 })

/-- One iteration of the orchestrator loop (lines 189-199), the
`try/except` included: any per-video exception becomes a logged outcome and
the loop moves on. -/
def processaVideo (env : Ambiente) (nome : String) (st : Estado) : Desfecho × Estado :=
  match extrairKeypoints env nome st with
  | (ResultadoExtracao.naoAbriu, st') => (Desfecho.falhaLeitura, st')
  | (ResultadoExtracao.semPose, st') => (Desfecho.semPose, st')
  | (ResultadoExtracao.ok nome', st') => transformaECarrega env nome' st'

/-- The orchestrator loop over the enumerated videos, collecting one
outcome per video in order. -/
def processaVideos (env : Ambiente) : List String → Estado → List (String × Desfecho) × Estado
  | [], st => ([], st)
  | v :: resto, st =>
      let r := processaVideo env v st
      let rs := processaVideos env resto r.2
      ((v, r.1) :: rs.1, rs.2)

/-- Whether a file name matches the glob pattern `*.mp4` of line 181: the
name ends in the four characters `.mp4` (case-sensitively, as on a POSIX
file system) and, since `*` in `glob` never matches a leading dot, the name
is not hidden. -/
def casaGlobMp4 (f : String) : Bool :=
  decide (f.data.reverse.take 4 = [ '4', 'p', 'm', '.' ])
    && !(decide (f.data.take 1 = [ '.' ]))

/-- Work-item selection of `main` (line 181): `glob.glob` over the input
directory with pattern `*.mp4`. -/
def filtraVideos (lista : List String) : List String :=
  lista.filter casaGlobMp4

/-- The whole of `main` (lines 173-201): database setup, globbing, then the
per-video loop.  `setupOk` records whether `setup_database` succeeded; when
it raises, `main` propagates the exception and no video is processed. -/
def executaMain (env : Ambiente) (setupOk : Bool) (lista : List String) (st : Estado) :
    Option (List (String × Desfecho) × Estado) :=
  if setupOk then some (processaVideos env (filtraVideos lista) st) else none

/-- Test environment for the closed witness statements: one unreadable
video name, every other name a one-frame video with one detected
landmark, no database errors. -/
def ambTeste : Ambiente where
  nomeDe := fun _ => "NOSE"
  conteudo := fun nome =>
    if nome = "ruim.mp4" then Conteudo.ilegivel
    else Conteudo.legivel [some [{ x := 1, y := 2, z := 3, visibilidade := 4 }]]
  dataProc := fun _ => "t0"
  dbErro := fun _ => false

/-- Empty durable state: no artifacts, empty table. -/
def estadoVazio : Estado where
  artefatos := []
  banco := []

/-- C6: a video whose source cannot be opened yields the distinct
unreadable outcome and performs no further work — the artifact directory
and the table are exactly as before — and within a run the remaining
videos are still processed from that unchanged state. -/
theorem video_ilegivel_isolado (env : Ambiente) (nome : String) (st : Estado)
    (resto : List String) (h : env.conteudo nome = Conteudo.ilegivel) :
    processaVideo env nome st = (Desfecho.falhaLeitura, st) ∧
    processaVideos env (nome :: resto) st
      = ((nome, Desfecho.falhaLeitura) :: (processaVideos env resto st).1,
         (processaVideos env resto st).2) := by
  have h1 : processaVideo env nome st = (Desfecho.falhaLeitura, st) := by
    simp [processaVideo, extrairKeypoints, h]
  refine ⟨h1, ?_⟩
  simp [processaVideos, h1]

/-- Witness for C6: the unreadable test video, alone in a run over the
empty state. -/
theorem video_ilegivel_isolado_witness :
    processaVideo ambTeste "ruim.mp4" estadoVazio = (Desfecho.falhaLeitura, estadoVazio) ∧
    processaVideos ambTeste ["ruim.mp4"] estadoVazio
      = (("ruim.mp4", Desfecho.falhaLeitura) :: (processaVideos ambTeste [] estadoVazio).1,
         (processaVideos ambTeste [] estadoVazio).2) :=
  video_ilegivel_isolado ambTeste "ruim.mp4" estadoVazio [] (by decide)

/-- C9: whatever each video's fate — unreadable source, no pose, database
error or success — the run emits exactly one outcome per enumerated video,
in order, so no single video's failure aborts the loop; a database-setup
failure instead aborts the run before any video is processed. -/
theorem isolamento_de_falhas (env : Ambiente) (vids : List String) (st : Estado) :
    (processaVideos env vids st).1.map Prod.fst = vids ∧
    ∀ lista st', executaMain env false lista st' = none := by
  constructor
  · induction vids generalizing st with
    | nil => rfl
    | cons v resto ih => simp [processaVideos, ih]
  · intro lista st'
    rfl

/-- C10: `main` enumerates exactly the `*.mp4` files — a name is a work
item iff it is listed in the input directory and matches the glob pattern —
and appending files of any other extension (other containers, other casing,
hidden files) to the listing changes nothing in the run: same outcomes,
same artifact directory, same table. -/
theorem somente_mp4 (lista : List String) :
    (∀ f, f ∈ filtraVideos lista ↔ f ∈ lista ∧ casaGlobMp4 f = true) ∧
    ∀ env setupOk st extra, (∀ f ∈ extra, casaGlobMp4 f = false) →
      executaMain env setupOk (lista ++ extra) st = executaMain env setupOk lista st := by
  constructor
  · intro f
    simp [filtraVideos, List.mem_filter]
  · intro env setupOk st extra hex
    have hfil : filtraVideos (lista ++ extra) = filtraVideos lista := by
      rw [filtraVideos, List.filter_append]
      have hnil : extra.filter casaGlobMp4 = [] :=
        List.filter_eq_nil_iff.mpr fun f hf => by simp [hex f hf]
      rw [hnil, List.append_nil]
      rfl
    simp [executaMain, hfil]

/-- Witness for C10: one real video plus an AVI file and an upper-cased
MP4, which the glob never selects. -/
theorem somente_mp4_witness :
    ("a.mp4" ∈ filtraVideos ["a.mp4", "b.avi"] ↔
        "a.mp4" ∈ ["a.mp4", "b.avi"] ∧ casaGlobMp4 "a.mp4" = true) ∧
    executaMain ambTeste true (["a.mp4"] ++ ["b.avi", "c.MP4"]) estadoVazio
      = executaMain ambTeste true ["a.mp4"] estadoVazio :=
  ⟨(somente_mp4 ["a.mp4", "b.avi"]).1 "a.mp4",
   (somente_mp4 ["a.mp4"]).2 ambTeste true estadoVazio ["b.avi", "c.MP4"] (by decide)⟩

/-! ## Visibility of the artifact file during its write (lines 103-108) -/

/-- Content visible at `json_output_path` at one instant: no file, a
created-but-incomplete (truncated or half-written) file, or the complete
capture. -/
inductive EstadoArquivo
  | ausente
  | truncado
  | completo (dados : List FrameData)
deriving DecidableEq

/-- Succession of states visible at the final path `json_output_path`
during the write at lines 107-108: before the `open` nothing is there (on
the first run); `open(json_output_path, 'w')` creates/truncates the file
in place; while `json.dump` streams, the file holds a prefix of the JSON;
the close of the `with` block completes it.  The code writes directly to
the final path — there is no temporary name and no rename. -/
def escritaDireta (dados : List FrameData) : List EstadoArquivo :=
  [EstadoArquivo.ausente, EstadoArquivo.truncado, EstadoArquivo.truncado,
   EstadoArquivo.completo dados]

/-- Modelled from the spec: the write-then-atomically-rename pattern of
section 4.1, which the code does not implement — the data would be written
under a temporary name and only the final atomic `rename` would make it
appear at the visible path, so the visible file stays absent until it is
complete. -/
def escritaAtomica (dados : List FrameData) : List EstadoArquivo :=
  [EstadoArquivo.ausente, EstadoArquivo.ausente, EstadoArquivo.ausente,
   EstadoArquivo.completo dados]

/-- A write trace never makes a partially written artifact visible: crash
at any instant and the path holds either nothing or the complete capture. -/
def semParcialVisivel (traco : List EstadoArquivo) : Prop :=
  ∀ e ∈ traco, e ≠ EstadoArquivo.truncado

/-- C7 counterexample: the artifact write opens the final path directly,
so immediately after the `open` — a possible crash instant — a truncated
artifact is visible under the video's key.  The claimed
write-then-atomic-rename discipline does not hold of this write. -/
theorem escrita_nao_atomica : ¬ semParcialVisivel (escritaDireta [fdTeste]) := fun h =>
  h EstadoArquivo.truncado (by simp [escritaDireta]) rfl

/-- C7 amended: the artifact is written in place at its final path in one
open-write-close sequence — once the write completes the full capture is
visible there, but mid-write a truncated file is visible at that same path;
the temp-and-rename discipline modelled from the spec is what would hide
every partial state. -/
theorem escrita_direta_caracterizada (dados : List FrameData) :
    (escritaDireta dados).getLast? = some (EstadoArquivo.completo dados) ∧
    EstadoArquivo.truncado ∈ escritaDireta dados ∧
    semParcialVisivel (escritaAtomica dados) := by
  refine ⟨rfl, by simp [escritaDireta], ?_⟩
  intro e he
  simp only [escritaAtomica, List.mem_cons, List.mem_singleton, List.not_mem_nil, or_false] at he
  rcases he with h | h | h | h <;> simp [h]

/-! ## What the load reports -/

theorem foldl_passoCarga_contagem (linhas : List Linha) :
    ∀ b n, (linhas.foldl passoCarga (b, n)).1.length + n
        = b.length + (linhas.foldl passoCarga (b, n)).2 ∧
      (linhas.foldl passoCarga (b, n)).2 ≤ n + linhas.length := by
  induction linhas with
  | nil => intro b n; simp
  | cons l resto ih =>
      intro b n
      simp only [List.foldl_cons, passoCarga, List.length_cons]
      by_cases hp : chavePresente b (chave l)
      · simp only [hp, if_pos]
        rcases ih b n with ⟨h1, h2⟩
        exact ⟨h1, by omega⟩
      · simp only [hp, if_neg, Bool.false_eq_true, not_false_iff]
        rcases ih (b ++ [l]) (n + 1) with ⟨h1, h2⟩
        rw [List.length_append, List.length_singleton] at h1
        exact ⟨by omega, by omega⟩

/-- Concrete rows for the closed counterexample statements. -/
def linhaTeste1 : Linha := linhaDe "v.mp4" "t0" 0 lmTeste

/-- Second concrete row, same video, next frame. -/
def linhaTeste2 : Linha := linhaDe "v.mp4" "t0" 1 lmTeste

/-- C8 counterexample: the only figure the load produces is
`cursor.rowcount`, the inserted count of line 165.  A first load of one
fresh row (zero duplicates skipped) and a re-load batch that skips one
duplicate produce the very same report, so the result does not contain the
skipped-as-duplicate count. -/
theorem carga_nao_reporta_puladas :
    (carrega [] [linhaTeste2]).2 = (carrega [linhaTeste1] [linhaTeste1, linhaTeste2]).2 ∧
    puladas [] [linhaTeste2] ≠ puladas [linhaTeste1] [linhaTeste1, linhaTeste2] := by
  constructor <;> decide

/-- C8 amended: a successful load reports one count, the number of newly
inserted rows — exactly the growth of the table — and the batch splits into
inserted plus skipped-as-duplicate, but the skipped share is not part of
the report; `inserted = 0` versus `inserted > 0` is still what
distinguishes a re-load from a first load. -/
theorem carga_reporta_inseridas (banco linhas : List Linha) :
    (carrega banco linhas).2 + banco.length = (carrega banco linhas).1.length ∧
    (carrega banco linhas).2 + puladas banco linhas = linhas.length := by
  rcases foldl_passoCarga_contagem linhas banco 0 with ⟨h1, h2⟩
  simp only [puladas, carrega] at h1 h2 ⊢
  constructor <;> omega
